import Mathlib

/-!
Verification of the project scaffolding script `setup.py`.

The script is modelled shallowly:

* a filesystem state `FS` records, relative to the base directory (the
  working directory of the script), which paths currently exist as
  directories and which exist as regular files; a path is its list of
  `/`-separated components;
* `makedirs` models `os.makedirs(path, exist_ok=True)`: it creates the
  directory and every missing ancestor, succeeds when the directory already
  exists, and fails with a `filesystemError` when some component of the
  path already exists as a regular file;
* `ensureStructure` models the creation loop (one progress line per path,
  printed after the successful creation);
* `runProgram` models the whole module body: the banner lines, the loop,
  the `npm install` subprocess (`check=True`) whose behaviour is a
  parameter, the `except subprocess.CalledProcessError` handler with its
  report and `exit(1)`, and the final success line.  An installer binary
  missing from the execution path raises `fileNotFoundError`, which the
  handler does not catch.
-/

namespace Setup

/-- Errors the script can die of: `filesystemError` abstracts the `OSError`
family raised by `os.makedirs` (path collision, permission denied);
`fileNotFoundError` is raised by `subprocess.run` when the executable is
missing from the execution path. -/
inductive PyError where
  | filesystemError
  | fileNotFoundError
deriving DecidableEq, Repr

/-- Filesystem state under the base directory: the set of existing
directories and the set of existing regular files, each path given as its
list of components. -/
@[ext] structure FS where
  dirs : Finset (List String)
  files : Finset (List String)
deriving DecidableEq

/-- The empty base directory. -/
def emptyFS : FS := ⟨∅, ∅⟩

/-- Split a relative path string into its `/`-separated components
(the interpretation `os.makedirs` gives to the strings of `dirs`). -/
def splitPathAux : List Char → List Char → List String
  | [], acc => [String.mk acc.reverse]
  | c :: cs, acc =>
    if c = '/' then String.mk acc.reverse :: splitPathAux cs []
    else splitPathAux cs (c :: acc)

/-- Components of a relative path string. -/
def splitPath (s : String) : List String := splitPathAux s.toList []

/-- The nonempty leading segments of a path: for `a/b/c` these are `a`,
`a/b` and `a/b/c` — the directories `os.makedirs` has to make exist. -/
def ancestors (p : List String) : List (List String) :=
  (List.range p.length).map (fun k => p.take (k + 1))

/-- `collision files p` holds when some leading segment of `p` exists as a
regular file, which makes `os.makedirs p` raise even with
`exist_ok=True`. -/
def collision (files : Finset (List String)) (p : List String) : Bool :=
  (ancestors p).any (fun q => decide (q ∈ files))

/-- Model of `os.makedirs(full_path, exist_ok=True)`: create the directory
and all missing ancestors; already-existing directories are fine; a
regular file sitting at any leading segment is a `filesystemError`. -/
def makedirs (fs : FS) (p : List String) : Except PyError FS :=
  if collision fs.files p then .error .filesystemError
  else .ok ⟨fs.dirs ∪ (ancestors p).toFinset, fs.files⟩

/-- The fixed directory list of `setup.py` (`dirs`). -/
def dirs : List String := [
  "src/app/api/ai/chat",
  "src/app/api/ai/generate",
  "src/app/api/ai/summarize",
  "src/app/blog/[slug]",
  "src/components/ui",
  "src/components/blog",
  "src/components/ai",
  "src/lib/firebase",
  "src/lib/openai",
  "src/types",
  "src/utils",
  "content/posts",
  "tests/unit",
  "tests/e2e",
  ".github/workflows",
  "public/images"
]

/-- Outcome of the creation loop: the progress lines printed, the
filesystem afterwards, and the error that aborted the loop, if any. -/
structure EnsureResult where
  output : List String
  fs : FS
  err : Option PyError
deriving DecidableEq

/-- The creation loop of `setup.py`: for each path, `os.makedirs` then the
progress line; an error aborts the loop at once (nothing catches it). -/
def ensureStructure (fs : FS) (ps : List String) : EnsureResult :=
  match ps with
  | [] => ⟨[], fs, none⟩
  | p :: rest =>
    match makedirs fs (splitPath p) with
    | .error e => ⟨[], fs, some e⟩
    | .ok fs2 =>
      let r := ensureStructure fs2 rest
      ⟨("  Created: " ++ p) :: r.output, r.fs, r.err⟩

/-- Behaviour of the external installer command: it runs and exits with
some status, or its executable cannot be found on the execution path. -/
inductive InstallBehavior where
  | exits (code : Nat)
  | notFound
deriving DecidableEq

/-- How the process ends: a plain exit with a status (`exit(1)` or falling
off the end of the script), or an uncaught exception printing a traceback
(the interpreter then exits with status 1). -/
inductive ExitResult where
  | code (n : Nat)
  | traceback (e : PyError)
deriving DecidableEq, Repr

/-- The process exit status each ending produces. -/
def ExitResult.status : ExitResult → Nat
  | .code n => n
  | .traceback _ => 1

/-- The line `print('Error installing dependencies: ...')` writes for a
`CalledProcessError` with the given exit status. -/
def installErrorLine (n : Nat) : String :=
  "Error installing dependencies: Command [npm, install] returned non-zero exit status "
    ++ Nat.repr n ++ "."

/-- Everything observable about one run of the script. -/
structure RunResult where
  fs : FS
  output : List String
  postInstallOutput : List String
  installInvoked : Bool
  exit : ExitResult
deriving DecidableEq

/-- The whole module body of `setup.py`, given the starting filesystem and
the behaviour of the `npm install` command.  `output` collects every line
the script itself prints, in order; `postInstallOutput` is the suffix of
`output` printed after the installer was invoked; `installInvoked` records
whether `subprocess.run` was reached. -/
def runProgram (fs0 : FS) (ib : InstallBehavior) : RunResult :=
  let e := ensureStructure fs0 dirs
  match e.err with
  | some fe =>
    ⟨e.fs, "Creating project structure..." :: e.output, [], false, .traceback fe⟩
  | none =>
    let pre := "Creating project structure..." :: e.output
      ++ ["\nStructure created successfully!", "Installing dependencies...\n"]
    match ib with
    | .notFound => ⟨e.fs, pre, [], true, .traceback .fileNotFoundError⟩
    | .exits n =>
      if n = 0 then
        ⟨e.fs, pre ++ ["\nProject setup complete!"], ["\nProject setup complete!"],
          true, .code 0⟩
      else
        ⟨e.fs, pre ++ [installErrorLine n], [installErrorLine n], true, .code 1⟩

/-- All directories a successful creation loop over `ps` guarantees: each
path of the list together with its implied ancestors. -/
def dirClosure (ps : List String) : Finset (List String) :=
  ps.foldr (fun p acc => (ancestors (splitPath p)).toFinset ∪ acc) ∅

/-! ### Basic lemmas about `makedirs` -/

theorem makedirs_ok_files {fs fs2 : FS} {p : List String}
    (h : makedirs fs p = .ok fs2) : fs2.files = fs.files := by
  unfold makedirs at h
  split at h
  · cases h
  · cases h; rfl

theorem makedirs_ok_dirs {fs fs2 : FS} {p : List String}
    (h : makedirs fs p = .ok fs2) :
    fs2.dirs = fs.dirs ∪ (ancestors p).toFinset := by
  unfold makedirs at h
  split at h
  · cases h
  · cases h; rfl

theorem makedirs_ok_collision {fs fs2 : FS} {p : List String}
    (h : makedirs fs p = .ok fs2) : collision fs.files p = false := by
  unfold makedirs at h
  split at h
  · cases h
  · next hc => simpa using hc

theorem makedirs_error_elim {fs : FS} {p : List String} {e : PyError}
    (h : makedirs fs p = .error e) :
    collision fs.files p = true ∧ e = .filesystemError := by
  unfold makedirs at h
  split at h
  · next hc => exact ⟨hc, by cases h; rfl⟩
  · cases h

theorem makedirs_ok_of_no_collision {fs : FS} {p : List String}
    (h : collision fs.files p = false) :
    makedirs fs p = .ok ⟨fs.dirs ∪ (ancestors p).toFinset, fs.files⟩ := by
  unfold makedirs
  simp [h]

/-! ### Basic lemmas about the creation loop -/

theorem ensure_files (fs : FS) (ps : List String) :
    (ensureStructure fs ps).fs.files = fs.files := by
  induction ps generalizing fs with
  | nil => rfl
  | cons p rest ih =>
    rw [ensureStructure]
    cases h : makedirs fs (splitPath p) with
    | error e => rfl
    | ok fs2 =>
      simpa [makedirs_ok_files h] using ih fs2

theorem ensure_dirs_mono (fs : FS) (ps : List String) :
    fs.dirs ⊆ (ensureStructure fs ps).fs.dirs := by
  induction ps generalizing fs with
  | nil => exact fun x hx => hx
  | cons p rest ih =>
    rw [ensureStructure]
    cases h : makedirs fs (splitPath p) with
    | error e => exact fun x hx => hx
    | ok fs2 =>
      intro x hx
      refine ih fs2 ?_
      rw [makedirs_ok_dirs h]
      exact Finset.mem_union_left _ hx

theorem ensure_err_none_iff (fs : FS) (ps : List String) :
    (ensureStructure fs ps).err = none ↔
      ∀ p ∈ ps, collision fs.files (splitPath p) = false := by
  induction ps generalizing fs with
  | nil => simp [ensureStructure]
  | cons p rest ih =>
    rw [ensureStructure]
    cases h : makedirs fs (splitPath p) with
    | error e =>
      simp only [List.mem_cons]
      constructor
      · intro hnone; cases hnone
      · intro hall
        have := (makedirs_error_elim h).1
        rw [hall p (Or.inl rfl)] at this
        cases this
    | ok fs2 =>
      have hfiles : fs2.files = fs.files := makedirs_ok_files h
      have hcol : collision fs.files (splitPath p) = false := makedirs_ok_collision h
      simp only [List.mem_cons]
      constructor
      · intro hnone q hq
        rcases hq with rfl | hq
        · exact hcol
        · have := (ih fs2).mp hnone q hq
          rwa [hfiles] at this
      · intro hall
        refine (ih fs2).mpr ?_
        intro q hq
        rw [hfiles]
        exact hall q (Or.inr hq)

theorem ensure_err_cases (fs : FS) (ps : List String) :
    (ensureStructure fs ps).err = none ∨
      (ensureStructure fs ps).err = some .filesystemError := by
  induction ps generalizing fs with
  | nil => exact Or.inl rfl
  | cons p rest ih =>
    rw [ensureStructure]
    cases h : makedirs fs (splitPath p) with
    | error e =>
      right
      have := (makedirs_error_elim h).2
      simp [this]
    | ok fs2 => simpa using ih fs2

theorem ensure_dirs_of_ok (fs : FS) (ps : List String)
    (h : (ensureStructure fs ps).err = none) :
    (ensureStructure fs ps).fs.dirs = fs.dirs ∪ dirClosure ps := by
  induction ps generalizing fs with
  | nil => simp [ensureStructure, dirClosure]
  | cons p rest ih =>
    rw [ensureStructure] at h ⊢
    cases hm : makedirs fs (splitPath p) with
    | error e => rw [hm] at h; cases h
    | ok fs2 =>
      rw [hm] at h
      have hrest : (ensureStructure fs2 rest).err = none := h
      have : (ensureStructure fs2 rest).fs.dirs = fs2.dirs ∪ dirClosure rest := ih fs2 hrest
      show (ensureStructure fs2 rest).fs.dirs = fs.dirs ∪ dirClosure (p :: rest)
      rw [this, makedirs_ok_dirs hm, Finset.union_assoc]
      rfl

theorem ensure_output_of_ok (fs : FS) (ps : List String)
    (h : (ensureStructure fs ps).err = none) :
    (ensureStructure fs ps).output = ps.map (fun p => "  Created: " ++ p) := by
  induction ps generalizing fs with
  | nil => rfl
  | cons p rest ih =>
    rw [ensureStructure] at h ⊢
    cases hm : makedirs fs (splitPath p) with
    | error e => rw [hm] at h; cases h
    | ok fs2 =>
      rw [hm] at h
      simpa using ih fs2 h

/-! ### Ancestors and collisions -/

theorem take_len_append (q t : List String) : (q ++ t).take q.length = q := by
  induction q with
  | nil => simp
  | cons a q ih => simp [ih]

theorem mem_ancestors_iff {d p : List String} :
    d ∈ ancestors p ↔ ∃ k, k < p.length ∧ p.take (k + 1) = d := by
  simp [ancestors, List.mem_map, List.mem_range]

theorem splitPathAux_ne_nil (l acc : List Char) : splitPathAux l acc ≠ [] := by
  induction l generalizing acc with
  | nil => simp [splitPathAux]
  | cons c cs ih =>
    rw [splitPathAux]
    split
    · simp
    · exact ih _

theorem splitPath_ne_nil (s : String) : splitPath s ≠ [] :=
  splitPathAux_ne_nil _ _

theorem self_mem_ancestors {p : List String} (h : p ≠ []) : p ∈ ancestors p := by
  have hpos : 0 < p.length := List.length_pos.mpr h
  refine mem_ancestors_iff.mpr ⟨p.length - 1, by omega, ?_⟩
  rw [Nat.sub_add_cancel hpos, List.take_length]

theorem append_mem_ancestors {q t p : List String} (hne : q ≠ []) (h : q ++ t = p) :
    q ∈ ancestors p := by
  have hpos : 0 < q.length := List.length_pos.mpr hne
  have hle : q.length ≤ p.length := by
    rw [← h, List.length_append]; omega
  refine mem_ancestors_iff.mpr ⟨q.length - 1, by omega, ?_⟩
  rw [Nat.sub_add_cancel hpos, ← h, take_len_append]

theorem mem_ancestors_elim {d p : List String} (h : d ∈ ancestors p) :
    d ≠ [] ∧ ∃ t, d ++ t = p := by
  rcases mem_ancestors_iff.mp h with ⟨k, hk, hd⟩
  constructor
  · rw [← hd]
    have : (p.take (k + 1)).length = (k + 1) ⊓ p.length := List.length_take _ _
    intro hnil
    rw [hnil] at this
    simp at this
    omega
  · exact ⟨p.drop (k + 1), by rw [← hd]; exact List.take_append_drop _ _⟩

theorem collision_of_file_under {files : Finset (List String)} {q p : List String}
    (hq : q ∈ files) (hne : q ≠ []) (hpre : ∃ t, q ++ t = p) :
    collision files p = true := by
  rcases hpre with ⟨t, ht⟩
  have hmem := append_mem_ancestors hne ht
  unfold collision
  rw [List.any_eq_true]
  exact ⟨q, hmem, by simpa using hq⟩

theorem makedirs_no_new_under {fs fs2 : FS} {p q d : List String}
    (hok : makedirs fs p = .ok fs2) (hq : q ∈ fs.files) (hne : q ≠ [])
    (hd : ∃ t, q ++ t = d) (hdn : d ∉ fs.dirs) : d ∉ fs2.dirs := by
  rw [makedirs_ok_dirs hok]
  intro hmem
  rcases Finset.mem_union.mp hmem with h1 | h2
  · exact hdn h1
  · have hd2 : d ∈ ancestors p := List.mem_toFinset.mp h2
    rcases mem_ancestors_elim hd2 with ⟨_, t2, ht2⟩
    rcases hd with ⟨t, ht⟩
    have hqp : q ++ (t ++ t2) = p := by rw [← List.append_assoc, ht, ht2]
    have hcol := collision_of_file_under hq hne ⟨_, hqp⟩
    rw [makedirs_ok_collision hok] at hcol
    cases hcol

theorem ensure_no_new_under (ps : List String) :
    ∀ fs : FS, ∀ q d : List String, q ∈ fs.files → q ≠ [] → (∃ t, q ++ t = d) →
      d ∉ fs.dirs → d ∉ (ensureStructure fs ps).fs.dirs := by
  induction ps with
  | nil =>
    intro fs q d _ _ _ hdn
    exact hdn
  | cons p rest ih =>
    intro fs q d hq hne hd hdn
    rw [ensureStructure]
    cases hm : makedirs fs (splitPath p) with
    | error e => exact hdn
    | ok fs2 =>
      exact ih fs2 q d (by rw [makedirs_ok_files hm]; exact hq) hne hd
        (makedirs_no_new_under hm hq hne hd hdn)

/-! ### Idempotence and order independence of the loop -/

theorem ensure_idem (fs : FS) (ps : List String)
    (h : (ensureStructure fs ps).err = none) :
    (ensureStructure (ensureStructure fs ps).fs ps).err = none ∧
    (ensureStructure (ensureStructure fs ps).fs ps).fs = (ensureStructure fs ps).fs ∧
    (ensureStructure (ensureStructure fs ps).fs ps).output
      = (ensureStructure fs ps).output := by
  have hfiles : (ensureStructure fs ps).fs.files = fs.files := ensure_files fs ps
  have h2 : (ensureStructure (ensureStructure fs ps).fs ps).err = none := by
    rw [ensure_err_none_iff]
    simp only [hfiles]
    exact (ensure_err_none_iff fs ps).mp h
  refine ⟨h2, ?_, ?_⟩
  · apply FS.ext
    · rw [ensure_dirs_of_ok _ _ h2, ensure_dirs_of_ok _ _ h,
        Finset.union_assoc, Finset.union_self]
    · rw [ensure_files, hfiles]
  · rw [ensure_output_of_ok _ _ h2, ensure_output_of_ok _ _ h]

theorem dirClosure_cons (p : String) (rest : List String) :
    dirClosure (p :: rest) = (ancestors (splitPath p)).toFinset ∪ dirClosure rest :=
  rfl

theorem mem_dirClosure_iff {x : List String} {ps : List String} :
    x ∈ dirClosure ps ↔ ∃ p ∈ ps, x ∈ ancestors (splitPath p) := by
  induction ps with
  | nil => simp [dirClosure]
  | cons p rest ih =>
    rw [dirClosure_cons]
    simp only [Finset.mem_union, List.mem_toFinset, ih, List.mem_cons]
    constructor
    · rintro (hx | ⟨q, hq, hx⟩)
      · exact ⟨p, Or.inl rfl, hx⟩
      · exact ⟨q, Or.inr hq, hx⟩
    · rintro ⟨q, rfl | hq, hx⟩
      · exact Or.inl hx
      · exact Or.inr ⟨q, hq, hx⟩

theorem dirClosure_perm {ps qs : List String} (h : ps.Perm qs) :
    dirClosure ps = dirClosure qs := by
  apply Finset.ext
  intro x
  rw [mem_dirClosure_iff, mem_dirClosure_iff]
  constructor
  · rintro ⟨p, hp, hx⟩
    exact ⟨p, h.mem_iff.mp hp, hx⟩
  · rintro ⟨p, hp, hx⟩
    exact ⟨p, h.mem_iff.mpr hp, hx⟩

theorem ensure_err_none_perm {fs : FS} {ps qs : List String} (h : ps.Perm qs)
    (hok : (ensureStructure fs ps).err = none) :
    (ensureStructure fs qs).err = none := by
  rw [ensure_err_none_iff] at hok ⊢
  intro p hp
  exact hok p (h.mem_iff.mpr hp)

theorem splitPath_mem_dirClosure {p : String} {ps : List String} (hp : p ∈ ps) :
    splitPath p ∈ dirClosure ps :=
  mem_dirClosure_iff.mpr ⟨p, hp, self_mem_ancestors (splitPath_ne_nil p)⟩

/-! ### Unfolding the whole run, branch by branch -/

theorem runProgram_fail {fs0 : FS} (ib : InstallBehavior) {e : PyError}
    (h : (ensureStructure fs0 dirs).err = some e) :
    runProgram fs0 ib = ⟨(ensureStructure fs0 dirs).fs,
      "Creating project structure..." :: (ensureStructure fs0 dirs).output,
      [], false, .traceback e⟩ := by
  simp only [runProgram, h]

theorem runProgram_ok_notFound {fs0 : FS}
    (h : (ensureStructure fs0 dirs).err = none) :
    runProgram fs0 .notFound = ⟨(ensureStructure fs0 dirs).fs,
      "Creating project structure..." :: (ensureStructure fs0 dirs).output
        ++ ["\nStructure created successfully!", "Installing dependencies...\n"],
      [], true, .traceback .fileNotFoundError⟩ := by
  simp only [runProgram, h]

theorem runProgram_ok_exits_zero {fs0 : FS}
    (h : (ensureStructure fs0 dirs).err = none) :
    runProgram fs0 (.exits 0) = ⟨(ensureStructure fs0 dirs).fs,
      ("Creating project structure..." :: (ensureStructure fs0 dirs).output
        ++ ["\nStructure created successfully!", "Installing dependencies...\n"])
        ++ ["\nProject setup complete!"],
      ["\nProject setup complete!"], true, .code 0⟩ := by
  simp only [runProgram, h, if_true]

theorem runProgram_ok_exits_pos {fs0 : FS} {n : Nat}
    (h : (ensureStructure fs0 dirs).err = none) (hn : n ≠ 0) :
    runProgram fs0 (.exits n) = ⟨(ensureStructure fs0 dirs).fs,
      ("Creating project structure..." :: (ensureStructure fs0 dirs).output
        ++ ["\nStructure created successfully!", "Installing dependencies...\n"])
        ++ [installErrorLine n],
      [installErrorLine n], true, .code 1⟩ := by
  simp only [runProgram, h, if_neg hn]

theorem runProgram_files (fs0 : FS) (ib : InstallBehavior) :
    (runProgram fs0 ib).fs.files = fs0.files := by
  cases h : (ensureStructure fs0 dirs).err with
  | none =>
    cases ib with
    | notFound => rw [runProgram_ok_notFound h]; exact ensure_files fs0 dirs
    | exits n =>
      cases Nat.eq_zero_or_pos n with
      | inl h0 =>
        subst h0
        rw [runProgram_ok_exits_zero h]
        exact ensure_files fs0 dirs
      | inr hpos =>
        rw [runProgram_ok_exits_pos h (Nat.pos_iff_ne_zero.mp hpos)]
        exact ensure_files fs0 dirs
  | some e => rw [runProgram_fail ib h]; exact ensure_files fs0 dirs

theorem runProgram_installInvoked (fs0 : FS) (ib : InstallBehavior) :
    (runProgram fs0 ib).installInvoked = (ensureStructure fs0 dirs).err.isNone := by
  cases h : (ensureStructure fs0 dirs).err with
  | none =>
    cases ib with
    | notFound => rw [runProgram_ok_notFound h]; rfl
    | exits n =>
      cases Nat.eq_zero_or_pos n with
      | inl h0 => subst h0; rw [runProgram_ok_exits_zero h]; rfl
      | inr hpos => rw [runProgram_ok_exits_pos h (Nat.pos_iff_ne_zero.mp hpos)]; rfl
  | some e => rw [runProgram_fail ib h]; rfl

theorem runProgram_exit_zero_elim {fs0 : FS} {ib : InstallBehavior}
    (h : (runProgram fs0 ib).exit = .code 0) :
    (ensureStructure fs0 dirs).err = none ∧ ib = .exits 0 := by
  cases he : (ensureStructure fs0 dirs).err with
  | some e =>
    rw [runProgram_fail ib he] at h
    cases h
  | none =>
    refine ⟨rfl, ?_⟩
    cases ib with
    | notFound => rw [runProgram_ok_notFound he] at h; cases h
    | exits n =>
      cases Nat.eq_zero_or_pos n with
      | inl h0 => subst h0; rfl
      | inr hpos =>
        rw [runProgram_ok_exits_pos he (Nat.pos_iff_ne_zero.mp hpos)] at h
        cases h

/-! ### The claims -/

/-- C1: in every run in which directory creation and the install command both
succeed (process exit status 0), each of the 16 listed paths exists as a
directory under the base directory afterwards and the script created no files;
starting from the empty base directory, the final directory set is exactly the
16 paths together with their implied ancestors, and the file set stays
empty. -/
theorem claim_C1 :
    dirs.length = 16
    ∧ (∀ fs0 : FS, ∀ ib : InstallBehavior, (runProgram fs0 ib).exit = .code 0 →
        (∀ p ∈ dirs, splitPath p ∈ (runProgram fs0 ib).fs.dirs)
        ∧ (runProgram fs0 ib).fs.files = fs0.files)
    ∧ (runProgram emptyFS (.exits 0)).fs.dirs = dirClosure dirs
    ∧ (runProgram emptyFS (.exits 0)).fs.files = ∅ := by
  refine ⟨rfl, ?_, ?_, ?_⟩
  · intro fs0 ib h
    rcases runProgram_exit_zero_elim h with ⟨he, rfl⟩
    rw [runProgram_ok_exits_zero he]
    refine ⟨?_, ensure_files fs0 dirs⟩
    intro p hp
    rw [ensure_dirs_of_ok _ _ he]
    exact Finset.mem_union_right _ (splitPath_mem_dirClosure hp)
  · have he : (ensureStructure emptyFS dirs).err = none := by decide
    rw [runProgram_ok_exits_zero he, ensure_dirs_of_ok _ _ he]
    simp [emptyFS]
  · rw [runProgram_files]
    rfl

/-- C1 witness: the concrete run from the empty base directory with an
installer that exits 0. -/
theorem claim_C1_witness :
    (runProgram emptyFS (.exits 0)).exit = .code 0
    ∧ ((∀ p ∈ dirs, splitPath p ∈ (runProgram emptyFS (.exits 0)).fs.dirs)
        ∧ (runProgram emptyFS (.exits 0)).fs.files = emptyFS.files) :=
  ⟨by decide, claim_C1.2.1 emptyFS (.exits 0) (by decide)⟩

/-- C2: if the creation phase succeeded but the installer exits with a nonzero
status, the script prints the failure report, exits with its own status 1, and
the filesystem keeps every directory created before the install step — no
rollback. -/
theorem claim_C2 (fs0 : FS) (n : Nat) (hn : n ≠ 0)
    (h : (ensureStructure fs0 dirs).err = none) :
    (runProgram fs0 (.exits n)).exit = .code 1
    ∧ (runProgram fs0 (.exits n)).postInstallOutput = [installErrorLine n]
    ∧ (runProgram fs0 (.exits n)).fs = (ensureStructure fs0 dirs).fs
    ∧ (runProgram fs0 (.exits n)).fs.dirs = fs0.dirs ∪ dirClosure dirs := by
  rw [runProgram_ok_exits_pos h hn]
  exact ⟨rfl, rfl, rfl, ensure_dirs_of_ok _ _ h⟩

/-- C2 witness: the empty base directory and an installer exiting 2. -/
theorem claim_C2_witness :
    ((2 : Nat) ≠ 0 ∧ (ensureStructure emptyFS dirs).err = none)
    ∧ ((runProgram emptyFS (.exits 2)).exit = .code 1
        ∧ (runProgram emptyFS (.exits 2)).postInstallOutput = [installErrorLine 2]
        ∧ (runProgram emptyFS (.exits 2)).fs = (ensureStructure emptyFS dirs).fs
        ∧ (runProgram emptyFS (.exits 2)).fs.dirs = emptyFS.dirs ∪ dirClosure dirs) :=
  ⟨⟨by decide, by decide⟩, claim_C2 emptyFS 2 (by decide) (by decide)⟩

/-- C3: directory creation is idempotent: running the creation loop a second
time against the filesystem the first successful run produced raises no error,
leaves the directory set identical, and prints the same progress lines. -/
theorem claim_C3 (fs0 : FS) (h : (ensureStructure fs0 dirs).err = none) :
    (ensureStructure (ensureStructure fs0 dirs).fs dirs).err = none
    ∧ (ensureStructure (ensureStructure fs0 dirs).fs dirs).fs
        = (ensureStructure fs0 dirs).fs
    ∧ (ensureStructure (ensureStructure fs0 dirs).fs dirs).output
        = (ensureStructure fs0 dirs).output :=
  ensure_idem fs0 dirs h

/-- C3 witness: the second run over the directories the first run made under
the empty base directory. -/
theorem claim_C3_witness :
    (ensureStructure emptyFS dirs).err = none
    ∧ ((ensureStructure (ensureStructure emptyFS dirs).fs dirs).err = none
        ∧ (ensureStructure (ensureStructure emptyFS dirs).fs dirs).fs
            = (ensureStructure emptyFS dirs).fs
        ∧ (ensureStructure (ensureStructure emptyFS dirs).fs dirs).output
            = (ensureStructure emptyFS dirs).output) :=
  ⟨by decide, claim_C3 emptyFS (by decide)⟩

/-- C4: a regular file sitting at a leading segment of one of the listed paths
makes the creation loop fail with a `filesystemError`, and no directory nested
under the colliding path is ever created. -/
theorem claim_C4 (fs0 : FS) (q : List String) (p : String)
    (hq : q ∈ fs0.files) (hne : q ≠ [])
    (hp : p ∈ dirs) (hpre : ∃ t, q ++ t = splitPath p) :
    (ensureStructure fs0 dirs).err = some .filesystemError
    ∧ ∀ d, (∃ t, q ++ t = d) → d ∉ fs0.dirs →
        d ∉ (ensureStructure fs0 dirs).fs.dirs := by
  constructor
  · rcases ensure_err_cases fs0 dirs with hnone | hsome
    · exfalso
      have hfalse := (ensure_err_none_iff fs0 dirs).mp hnone p hp
      rw [collision_of_file_under hq hne hpre] at hfalse
      cases hfalse
    · exact hsome
  · intro d hd hdn
    exact ensure_no_new_under dirs fs0 q d hq hne hd hdn

/-- C4 witness: a regular file named `src` where the directory
`src/app/api/ai/chat` must be created; `src/app` is never made. -/
theorem claim_C4_witness :
    (["src"] ∈ (FS.mk ∅ {["src"]}).files ∧ (["src"] : List String) ≠ []
      ∧ "src/app/api/ai/chat" ∈ dirs
      ∧ (∃ t, ["src"] ++ t = splitPath "src/app/api/ai/chat"))
    ∧ (ensureStructure (FS.mk ∅ {["src"]}) dirs).err = some .filesystemError
    ∧ ["src", "app"] ∉ (ensureStructure (FS.mk ∅ {["src"]}) dirs).fs.dirs := by
  have h := claim_C4 (FS.mk ∅ {["src"]}) ["src"] "src/app/api/ai/chat"
    (by decide) (by decide) (by decide) ⟨["app", "api", "ai", "chat"], by decide⟩
  exact ⟨⟨by decide, by decide, by decide, ⟨["app", "api", "ai", "chat"], by decide⟩⟩,
    h.1, h.2 ["src", "app"] ⟨["app"], rfl⟩ (by decide)⟩

/-- C5: an error raised during directory creation is caught nowhere: the run
aborts with a `filesystemError` traceback and a nonzero process exit status,
nothing further is printed, and the installer is never invoked. -/
theorem claim_C5 (fs0 : FS) (ib : InstallBehavior) {e : PyError}
    (h : (ensureStructure fs0 dirs).err = some e) :
    (runProgram fs0 ib).exit = .traceback e
    ∧ e = .filesystemError
    ∧ (runProgram fs0 ib).exit.status ≠ 0
    ∧ (runProgram fs0 ib).installInvoked = false
    ∧ (runProgram fs0 ib).postInstallOutput = [] := by
  have he : e = .filesystemError := by
    rcases ensure_err_cases fs0 dirs with h0 | h0
    · rw [h0] at h; cases h
    · rw [h0] at h; cases h; rfl
  rw [runProgram_fail ib h]
  exact ⟨rfl, he, by simp [ExitResult.status], rfl, rfl⟩

/-- C5 witness: a file named `src` makes the loop fail; the aborted run never
reaches the installer. -/
theorem claim_C5_witness :
    (ensureStructure (FS.mk ∅ {["src"]}) dirs).err = some .filesystemError
    ∧ ((runProgram (FS.mk ∅ {["src"]}) (.exits 0)).exit
          = .traceback .filesystemError
        ∧ PyError.filesystemError = .filesystemError
        ∧ (runProgram (FS.mk ∅ {["src"]}) (.exits 0)).exit.status ≠ 0
        ∧ (runProgram (FS.mk ∅ {["src"]}) (.exits 0)).installInvoked = false
        ∧ (runProgram (FS.mk ∅ {["src"]}) (.exits 0)).postInstallOutput = []) :=
  ⟨by decide, claim_C5 (FS.mk ∅ {["src"]}) (.exits 0) (by decide)⟩

/-- C6: the two phases are strictly ordered: the installer is invoked exactly
when the creation loop over all 16 paths finished without error, and a
creation error aborts the run with the install command never executed. -/
theorem claim_C6 (fs0 : FS) (ib : InstallBehavior) :
    (runProgram fs0 ib).installInvoked = (ensureStructure fs0 dirs).err.isNone
    ∧ ((ensureStructure fs0 dirs).err ≠ none →
        (runProgram fs0 ib).installInvoked = false
        ∧ (runProgram fs0 ib).exit = .traceback .filesystemError) := by
  refine ⟨runProgram_installInvoked fs0 ib, ?_⟩
  intro hne
  rcases ensure_err_cases fs0 dirs with h0 | h0
  · exact absurd h0 hne
  · rw [runProgram_fail ib h0]
    exact ⟨rfl, rfl⟩

/-- C6 witness: with a file named `src` in the way, the creation loop fails
and the installer is never invoked. -/
theorem claim_C6_witness :
    ((runProgram (FS.mk ∅ {["src"]}) (.exits 0)).installInvoked
        = (ensureStructure (FS.mk ∅ {["src"]}) dirs).err.isNone)
    ∧ ((runProgram (FS.mk ∅ {["src"]}) (.exits 0)).installInvoked = false
        ∧ (runProgram (FS.mk ∅ {["src"]}) (.exits 0)).exit
            = .traceback .filesystemError) :=
  ⟨(claim_C6 (FS.mk ∅ {["src"]}) (.exits 0)).1,
    (claim_C6 (FS.mk ∅ {["src"]}) (.exits 0)).2 (by decide)⟩

/-- C7: permuting the fixed directory list changes nothing: when the loop over
`dirs` succeeds, the loop over any permutation of it also succeeds and ends in
the same filesystem (mkdir-with-parents makes creation order-insensitive). -/
theorem claim_C7 (fs0 : FS) (qs : List String) (hperm : dirs.Perm qs)
    (h : (ensureStructure fs0 dirs).err = none) :
    (ensureStructure fs0 qs).err = none
    ∧ (ensureStructure fs0 qs).fs = (ensureStructure fs0 dirs).fs := by
  have h2 := ensure_err_none_perm hperm h
  refine ⟨h2, ?_⟩
  apply FS.ext
  · rw [ensure_dirs_of_ok _ _ h2, ensure_dirs_of_ok _ _ h, dirClosure_perm hperm]
  · rw [ensure_files, ensure_files]

/-- C7 witness: the reversed directory list against the empty base
directory. -/
theorem claim_C7_witness :
    (dirs.Perm dirs.reverse ∧ (ensureStructure emptyFS dirs).err = none)
    ∧ ((ensureStructure emptyFS dirs.reverse).err = none
        ∧ (ensureStructure emptyFS dirs.reverse).fs
            = (ensureStructure emptyFS dirs).fs) :=
  ⟨⟨(List.reverse_perm dirs).symm, by decide⟩,
    claim_C7 emptyFS dirs.reverse (List.reverse_perm dirs).symm (by decide)⟩

/-- C8 as stated is false at a concrete input: from the empty base directory
with the installer exiting 0, the run does exit with status 0, but the script
is not silent after invoking the installer — it prints the success line. -/
theorem claim_C8_counterexample :
    (runProgram emptyFS (.exits 0)).exit = .code 0
    ∧ (runProgram emptyFS (.exits 0)).postInstallOutput
        = ["\nProject setup complete!"]
    ∧ ¬ (runProgram emptyFS (.exits 0)).postInstallOutput = [] := by
  refine ⟨?_, ?_, ?_⟩ <;> decide

/-- C8 amended: when creation succeeded and the install command exits with
status 0, the program exits with status 0 and, beyond the installer's own
inherited output, emits exactly one further line of its own after the
installer returns, the success line `Project setup complete!`. -/
theorem claim_C8_amended (fs0 : FS)
    (h : (ensureStructure fs0 dirs).err = none) :
    (runProgram fs0 (.exits 0)).exit = .code 0
    ∧ (runProgram fs0 (.exits 0)).postInstallOutput
        = ["\nProject setup complete!"] := by
  rw [runProgram_ok_exits_zero h]
  exact ⟨rfl, rfl⟩

/-- C8 witness: the amended statement at the empty base directory. -/
theorem claim_C8_witness :
    (ensureStructure emptyFS dirs).err = none
    ∧ ((runProgram emptyFS (.exits 0)).exit = .code 0
        ∧ (runProgram emptyFS (.exits 0)).postInstallOutput
            = ["\nProject setup complete!"]) :=
  ⟨by decide, claim_C8_amended emptyFS (by decide)⟩

/-- C9: a creation loop that finishes without error prints exactly one
progress line per listed path, in the order of the list, each line printed
right after its path was successfully created. -/
theorem claim_C9 (fs0 : FS) (h : (ensureStructure fs0 dirs).err = none) :
    (ensureStructure fs0 dirs).output
      = dirs.map (fun p => "  Created: " ++ p) :=
  ensure_output_of_ok fs0 dirs h

/-- C9 witness: the sixteen progress lines of the run from the empty base
directory. -/
theorem claim_C9_witness :
    (ensureStructure emptyFS dirs).err = none
    ∧ (ensureStructure emptyFS dirs).output
        = dirs.map (fun p => "  Created: " ++ p) :=
  ⟨by decide, claim_C9 emptyFS (by decide)⟩

/-- C10: a missing installer executable is not a nonzero-exit
`CalledProcessError`: the top-level handler does not catch it, no
install-error report is printed, the deliberate `exit(1)` path (or any plain
exit) is not taken, and the run aborts with a `fileNotFoundError`
traceback. -/
theorem claim_C10 (fs0 : FS) (h : (ensureStructure fs0 dirs).err = none) :
    (runProgram fs0 .notFound).exit = .traceback .fileNotFoundError
    ∧ (runProgram fs0 .notFound).postInstallOutput = []
    ∧ ∀ n : Nat, (runProgram fs0 .notFound).exit ≠ .code n := by
  rw [runProgram_ok_notFound h]
  refine ⟨rfl, rfl, ?_⟩
  intro n hc
  cases hc

/-- C10 witness: the missing-executable run from the empty base directory. -/
theorem claim_C10_witness :
    (ensureStructure emptyFS dirs).err = none
    ∧ ((runProgram emptyFS .notFound).exit = .traceback .fileNotFoundError
        ∧ (runProgram emptyFS .notFound).postInstallOutput = []
        ∧ ∀ n : Nat, (runProgram emptyFS .notFound).exit ≠ .code n) :=
  ⟨by decide, claim_C10 emptyFS (by decide)⟩

end Setup
